import Mathlib

/-!
Shallow embedding of the `dataprep` data-preparation pipeline
(`data_preparation_pipeline.py` together with its `config.py` constants).

Sequences and cell values are modelled as `List Char` (ASCII text, one line,
as delivered by the CSV/FASTA sources).  Tables are modelled as a record of
column-presence flags together with a list of rows; randomness is modelled as
an oracle `rand : Nat -> Nat` consumed at an explicit counter, and the
unbounded `while` loops are modelled with an explicit fuel argument returning
`none` on fuel exhaustion.
-/

set_option maxHeartbeats 1000000

namespace DataPrep

/-! ### Configuration constants (`config.py`) -/

def MIN_PEPTIDE_LENGTH : Nat := 10

def MAX_PEPTIDE_LENGTH : Nat := 30

def TARGET_SAMPLE_SIZE : Nat := 5000

/-- The constant `IEDB_EPITOPE_BASE_URL` from `config.py`. -/
def IEDB_EPITOPE_BASE_URL : List Char := "http://www.iedb.org/epitope/".toList

/-! ### Character and string helpers (Python string semantics on ASCII text) -/

/-- Python `\s` / `str.strip` whitespace, restricted to the ASCII range. -/
def pyIsSpace (c : Char) : Bool :=
  c == ' ' || c == '\t' || c == '\n' || c == '\r' || c == '\x0b' || c == '\x0c'

/-- The character class `[BJOUXZ\+\(\)]` used by `clean_iedb_sequence` step 4. -/
def isForbiddenChar (c : Char) : Bool :=
  c == 'B' || c == 'J' || c == 'O' || c == 'U' || c == 'X' || c == 'Z' ||
    c == '+' || c == '(' || c == ')'

/-- The set `set("BJOUXZ")` used by the negative sampler's acceptance test. -/
def isBJOUXZ (c : Char) : Bool :=
  c == 'B' || c == 'J' || c == 'O' || c == 'U' || c == 'X' || c == 'Z'

/-- Python `str.upper()` on ASCII text. -/
def pyUpper (s : List Char) : List Char := s.map Char.toUpper

/-- Remove the trailing whitespace run (right half of Python `str.strip`). -/
def rstripSpace (s : List Char) : List Char :=
  (s.reverse.dropWhile pyIsSpace).reverse

/-- Python `str.strip()`: drop leading and trailing whitespace. -/
def pyStrip (s : List Char) : List Char :=
  rstripSpace (s.dropWhile pyIsSpace)

/-- Python `str.isnumeric()` on ASCII text: nonempty and all decimal digits.
(Non-ASCII numerals are outside the modelled character range.) -/
def pyIsNumeric (s : List Char) : Bool :=
  !s.isEmpty && s.all Char.isDigit

/-- Embeds `re.sub(r'\s*\+.*', '', s)` on one-line text: the leftmost match starts at
the whitespace run immediately preceding the first `'+'` (the run may be
empty, as `\s*` matches zero characters), and `.*` consumes the rest of the
line.  If the string has no `'+'`, it is returned unchanged. -/
def subPlusTail (s : List Char) : List Char :=
  if s.any (· == '+') then rstripSpace (s.take (s.findIdx (· == '+'))) else s

/-- Embeds `re.sub(r'\s+.*', '', s)` on one-line text: truncate at the first
whitespace character. -/
def subSpaceTail (s : List Char) : List Char :=
  s.takeWhile (fun c => !pyIsSpace c)

/-- The per-value normalization of `clean_iedb_sequence`: upper-case, then
strip from the first `'+'` (absorbing the immediately preceding whitespace
run), then strip from the first remaining whitespace character. -/
def cleanSequenceStr (s : List Char) : List Char :=
  subSpaceTail (subPlusTail (pyUpper s))

/-- Embeds `pandas.Series.str.replace(r'\.0$', '', regex=True)`: remove one trailing
literal `".0"` if present. -/
def stripDot0 (s : List Char) : List Char :=
  match s.reverse with
  | '0' :: '.' :: rest => rest.reverse
  | _ => s

/-- The literal column/id tag `"IEDB_EPI_"`. -/
def iedbTag : List Char := ['I', 'E', 'D', 'B', '_', 'E', 'P', 'I', '_']

/-- Python `str.replace('IEDB_EPI_', '')`: remove every (non-overlapping)
occurrence of the literal tag. -/
def removeIedbTag : List Char → List Char
  | 'I' :: 'E' :: 'D' :: 'B' :: '_' :: 'E' :: 'P' :: 'I' :: '_' :: rest =>
      removeIedbTag rest
  | c :: rest => c :: removeIedbTag rest
  | [] => []

/-- Bool test: `s` is of the shape `IEDB_EPI_<digits>` with a nonempty,
all-decimal-digit suffix (the regex `IEDB_EPI_\d+` anchored on both sides). -/
def isIedbAccession (s : List Char) : Bool :=
  match s with
  | 'I' :: 'E' :: 'D' :: 'B' :: '_' :: 'E' :: 'P' :: 'I' :: '_' :: rest =>
      !rest.isEmpty && rest.all Char.isDigit
  | _ => false

/-- Python `str.split(sep)` for a one-character separator. -/
def pySplit (sep : Char) : List Char → List (List Char)
  | [] => [[]]
  | c :: t =>
    match pySplit sep t with
    | [] => if c == sep then [[], [c]] else [[c]]
    | h :: r => if c == sep then [] :: h :: r else (c :: h) :: r

/-- Character for the decimal digit `d` (used by the `f"{n:06d}"` rendering of `n`, left-padded with `'0'` to width 6. -/
def digitToChar (d : Nat) : Char := Char.ofNat (48 + d)

/-- Big-endian decimal digit string of `n` (empty for `n = 0` never occurs in
use sites because the counter starts at 1; `Nat.digits` of 0 is `[]`). -/
def decimalChars (n : Nat) : List Char :=
  ((Nat.digits 10 n).map digitToChar).reverse

def pad6 (n : Nat) : List Char :=
  List.replicate (6 - (decimalChars n).length) '0' ++ decimalChars n

/-! ### Table model

A pandas DataFrame is modelled as a set of column-presence flags (for the
columns the pipeline inspects) together with a list of rows; a row carries the
cell value for each modelled column (`Option` where the pipeline
distinguishes NaN).  Column names are post-normalization semantic names:
`sequence` is the `Sequence` column, `epitopeIdRaw` the lower-case
`epitope_id` column, `epitopeIdOut` the capitalised `Epitope_ID` column, etc.
A row field is meaningful only when the corresponding flag is set. -/

structure Row where
  sequence : List Char
  organism : Option (List Char)
  proteinName : List Char
  epitopeIdRaw : List Char
  bcellEpitopeIdRaw : List Char
  accession : List Char
  epitopeIdOut : List Char
  sourceProtein : List Char
  originalHeader : List Char
  group : List Char
  deriving Repr, DecidableEq

structure DataFrame where
  hasSequence : Bool
  hasOrganism : Bool
  hasProteinName : Bool
  hasEpitopeId : Bool
  hasBcellEpitopeId : Bool
  hasAccessionId : Bool
  hasEpitopeIdCap : Bool
  hasSourceProtein : Bool
  hasOriginalHeader : Bool
  hasGroup : Bool
  rows : List Row
  deriving Repr, DecidableEq

def emptyDF : DataFrame :=
  ⟨false, false, false, false, false, false, false, false, false, false, []⟩

/-- Embeds `pd.concat(chunks, ignore_index=True)`: union of columns, rows appended. -/
def concatDF (l : List DataFrame) : DataFrame :=
  ⟨l.any (·.hasSequence), l.any (·.hasOrganism), l.any (·.hasProteinName),
   l.any (·.hasEpitopeId), l.any (·.hasBcellEpitopeId), l.any (·.hasAccessionId),
   l.any (·.hasEpitopeIdCap), l.any (·.hasSourceProtein),
   l.any (·.hasOriginalHeader), l.any (·.hasGroup), (l.map (·.rows)).flatten⟩

/-! ### `clean_iedb_sequence` -/

/-- Embeds `df.drop_duplicates(subset=["Sequence"])`: keep the first row for each
sequence value. -/
def dedupBySeq (seen : List (List Char)) : List Row → List Row
  | [] => []
  | r :: t =>
    if seen.contains r.sequence then dedupBySeq seen t
    else r :: dedupBySeq (r.sequence :: seen) t

/-- Embeds `clean_iedb_sequence(df)`.  When the table has no `Sequence` column the
body is skipped and the table is returned unchanged.  Otherwise: normalize
every sequence value, drop rows with a null organism
(`dropna(subset=["Sequence","Organism"])`; after `astype(str)` the sequence
cell itself is never null — but the call raises `KeyError` if the `Organism`
column is absent, modelled as `.error ()`), filter by length in
`[MIN_PEPTIDE_LENGTH, MAX_PEPTIDE_LENGTH]`, drop rows containing a character
of `[BJOUXZ\+\(\)]`, and de-duplicate by sequence keeping first. -/
def clean_iedb_sequence (df : DataFrame) : Except Unit DataFrame :=
  if df.hasSequence then
    if df.hasOrganism then
      let r1 := df.rows.map fun r => { r with sequence := cleanSequenceStr r.sequence }
      let r2 := r1.filter fun r => r.organism.isSome
      let r3 := r2.filter fun r =>
        decide (MIN_PEPTIDE_LENGTH ≤ r.sequence.length ∧
          r.sequence.length ≤ MAX_PEPTIDE_LENGTH)
      let r4 := r3.filter fun r => !r.sequence.any isForbiddenChar
      .ok { df with rows := dedupBySeq [] r4 }
    else .error ()
  else .ok df

/-! ### `create_accession_id` -/

/-- Embeds `create_accession_id(df)`.  If an `Accession_ID` column exists, the table
is returned untouched.  Otherwise, if one of the candidate id columns
(`epitope_id` first, then `bcell_epitope_id`) exists, its values are
stringified, a trailing `".0"` stripped, whitespace-stripped, non-numeric
rows dropped, and `Accession_ID = "IEDB_EPI_" + id` built; else a dense
0-based index is assigned and `Accession_ID = "IEDB_EPI_" + f"{i+1:06d}"`. -/
def create_accession_id (df : DataFrame) : DataFrame :=
  if df.hasAccessionId then df
  else if df.hasEpitopeId || df.hasBcellEpitopeId then
    let pick : Row → List Char := fun r =>
      if df.hasEpitopeId then r.epitopeIdRaw else r.bcellEpitopeIdRaw
    let r1 := df.rows.map fun r =>
      { r with epitopeIdOut := pyStrip (stripDot0 (pick r)) }
    let r2 := r1.filter fun r => pyIsNumeric r.epitopeIdOut
    let r3 := r2.map fun r => { r with accession := iedbTag ++ r.epitopeIdOut }
    { df with hasAccessionId := true, hasEpitopeIdCap := true, rows := r3 }
  else
    let rows' := df.rows.enum.map fun p =>
      { p.2 with
        accession := iedbTag ++ pad6 (p.1 + 1),
        epitopeIdOut := removeIedbTag (iedbTag ++ pad6 (p.1 + 1)) }
    { df with hasAccessionId := true, hasEpitopeIdCap := true, rows := rows' }

/-! ### Cache-read column repair (`download_positive_data`, disk path) -/

def unknownStr : List Char := "unknown".toList

/-- The cache-read path fills each of the required export columns
(`Accession_ID`, `Sequence`, `Group`, `Organism`, `Protein_Name`,
`Epitope_ID`) that is missing with the literal string `'unknown'`. -/
def fillRequired (df : DataFrame) : DataFrame :=
  let d1 := if df.hasAccessionId then df else
    { df with hasAccessionId := true,
              rows := df.rows.map fun r => { r with accession := unknownStr } }
  let d2 := if d1.hasSequence then d1 else
    { d1 with hasSequence := true,
              rows := d1.rows.map fun r => { r with sequence := unknownStr } }
  let d3 := if d2.hasGroup then d2 else
    { d2 with hasGroup := true,
              rows := d2.rows.map fun r => { r with group := unknownStr } }
  let d4 := if d3.hasOrganism then d3 else
    { d3 with hasOrganism := true,
              rows := d3.rows.map fun r => { r with organism := some unknownStr } }
  let d5 := if d4.hasProteinName then d4 else
    { d4 with hasProteinName := true,
              rows := d4.rows.map fun r => { r with proteinName := unknownStr } }
  if d5.hasEpitopeIdCap then d5 else
    { d5 with hasEpitopeIdCap := true,
              rows := d5.rows.map fun r => { r with epitopeIdOut := unknownStr } }

/-! ### Negative sampler (`generate_negative_data`, core loop) -/

/-- A Biopython `SeqRecord` as consumed by the sampler: `.id`, `.description`,
`str(.seq)`. -/
structure Protein where
  pid : List Char
  pdesc : List Char
  pseq : List Char
  deriving Repr, DecidableEq

def defaultProtein : Protein := ⟨[], [], []⟩

/-- A generated negative record (one dict appended to `synthetic_data`). -/
structure NegRecord where
  sequence : List Char
  group : List Char
  organism : List Char
  sourceProtein : List Char
  originalHeader : List Char
  deriving Repr, DecidableEq

/-- Embeds `prot.id.split('|')[1] if '|' in prot.id else prot.id`. -/
def pyProtId (p : Protein) : List Char :=
  if p.pid.contains '|' then (pySplit '|' p.pid).getD 1 [] else p.pid

def mkNegRecord (p : Protein) (pep : List Char) : NegRecord :=
  ⟨pep, "UNIPROT_RANDOM".toList, "UniProt_Random".toList, pyProtId p,
    pyStrip p.pdesc⟩

structure SamplerState where
  data : List NegRecord
  seen : List (List Char)
  pool : List Nat
  k : Nat
  deriving Repr

/-- The rejection-sampling `while` loop of `generate_negative_data`, with an
explicit fuel bound (`none` = fuel exhausted before the loop condition turned
false).  `random.choice` / `random.randint` draw from the oracle `rand` at the
running counter `st.k` by reduction modulo the range size. -/
def samplerLoop (seqs : List Protein) (target : Nat) (rand : Nat → Nat) :
    Nat → SamplerState → Option (List NegRecord)
  | 0, _ => none
  | fuel + 1, st =>
    if st.data.length < target && !st.pool.isEmpty then
      let idx := st.pool.getD (rand st.k % st.pool.length) 0
      let p := seqs.getD idx defaultProtein
      let s := pyUpper p.pseq
      if s.length < MIN_PEPTIDE_LENGTH then
        samplerLoop seqs target rand fuel
          ⟨st.data, st.seen, st.pool.erase idx, st.k + 1⟩
      else
        let size := MIN_PEPTIDE_LENGTH +
          rand (st.k + 1) % (min MAX_PEPTIDE_LENGTH s.length - MIN_PEPTIDE_LENGTH + 1)
        let start := rand (st.k + 2) % (s.length - size + 1)
        let pep := (s.drop start).take size
        if !st.seen.contains pep && !pep.any isBJOUXZ then
          samplerLoop seqs target rand fuel
            ⟨st.data ++ [mkNegRecord p pep], pep :: st.seen, st.pool, st.k + 3⟩
        else
          samplerLoop seqs target rand fuel ⟨st.data, st.seen, st.pool, st.k + 3⟩
    else some st.data

/-- Initial sampler state: `synthetic_data = []`, `seen_peptides = set()`,
`sample_pool = list(range(len(background_seqs)))`. -/
def initSampler (seqs : List Protein) : SamplerState :=
  ⟨[], [], List.range seqs.length, 0⟩

/-- Embeds `pd.DataFrame(synthetic_data)`: an empty dict list yields a table with no
columns at all; a nonempty one has exactly the dict keys as columns. -/
def negDF (data : List NegRecord) : DataFrame :=
  { emptyDF with
    hasSequence := !data.isEmpty,
    hasGroup := !data.isEmpty,
    hasOrganism := !data.isEmpty,
    hasSourceProtein := !data.isEmpty,
    hasOriginalHeader := !data.isEmpty,
    rows := data.map fun n =>
      { sequence := n.sequence, organism := some n.organism,
        proteinName := [], epitopeIdRaw := [], bcellEpitopeIdRaw := [],
        accession := [], epitopeIdOut := [],
        sourceProtein := n.sourceProtein,
        originalHeader := n.originalHeader, group := n.group } }

/-! ### Filesystem and network model -/

/-- A CSV artifact on disk; `parse = none` models a file `pd.read_csv` fails
on (read error / empty file). -/
structure CsvFile where
  parse : Option DataFrame
  deriving Repr, DecidableEq

structure FastaFile where
  lines : List (List Char)
  deriving Repr, DecidableEq

structure FileSystem where
  iedbCsv : Option CsvFile
  uniprotCsv : Option CsvFile
  iedbFasta : Option FastaFile
  uniprotFasta : Option FastaFile
  deriving Repr, DecidableEq

/-- Response of one paginated IEDB request at a given offset: request error,
blank body, or a parsed CSV chunk (chunks are modelled post-column-mapping,
with the semantic column flags already in place). -/
inductive PageResp where
  | err : PageResp
  | emptyText : PageResp
  | table : DataFrame → PageResp
  deriving Repr

/-- The remote world: the one-row IEDB probe outcome, the paginated chunk at
each offset, and the UniProt download (`none` = request error). -/
structure Net where
  probeOk : Bool
  page : Nat → PageResp
  uniprot : Option (List Protein)

/-! ### `download_positive_data` -/

/-- The pagination loop: request at `offset`; a request error or an
empty/blank page ends the loop, a partial page (fewer rows than `limit`) is
kept and ends the loop, a full page is kept and the loop continues at
`offset + limit`.  Returns accumulated chunks plus the list of requested
offsets; `none` = fuel ran out while pages kept coming. -/
def paginate (net : Net) (limit : Nat) :
    Nat → Nat → List DataFrame → Option (List DataFrame × List Nat)
  | 0, _, _ => none
  | fuel + 1, offset, acc =>
    match net.page offset with
    | .err => some (acc, [offset])
    | .emptyText => some (acc, [offset])
    | .table df =>
      if df.rows.isEmpty then some (acc, [offset])
      else if df.rows.length < limit then some (acc ++ [df], [offset])
      else
        (paginate net limit fuel (offset + limit) (acc ++ [df])).map
          fun pr => (pr.1, offset :: pr.2)

/-- Post-concat processing of the live path: ensure `Protein_Name`
(placeholder `'Unknown Antigen'`), hard-fail without a `Sequence` column,
fill the remaining FASTA-required columns with `'Unknown <Col>'`
placeholders, clean, tag `Group='IEDB_All'`, assign accession ids, and keep
the export column subset.  `none` models the `(None, 0)` failure returns. -/
def processRaw (dfRaw : DataFrame) : Option (DataFrame × Nat) :=
  let d1 := if dfRaw.hasProteinName then dfRaw else
    { dfRaw with
      hasProteinName := true,
      rows := dfRaw.rows.map fun r => { r with proteinName := "Unknown Antigen".toList } }
  if d1.hasSequence then
    let d2 := if d1.hasOrganism then d1 else
      { d1 with
        hasOrganism := true,
        rows := d1.rows.map fun r => { r with organism := some ("Unknown Organism".toList) } }
    let d3 := if d2.hasProteinName then d2 else
      { d2 with
        hasProteinName := true,
        rows := d2.rows.map fun r => { r with proteinName := "Unknown Protein Name".toList } }
    let d4 := if d3.hasEpitopeId then d3 else
      { d3 with
        hasEpitopeId := true,
        rows := d3.rows.map fun r => { r with epitopeIdRaw := "Unknown Epitope Id".toList } }
    match clean_iedb_sequence d4 with
    | .error _ => none
    | .ok d5 =>
      let d6 := { d5 with
        hasGroup := true,
        rows := d5.rows.map fun r => { r with group := "IEDB_All".toList } }
      let d7 := create_accession_id d6
      if d7.rows.length > 0 then
        let dExp : DataFrame :=
          { hasSequence := true, hasOrganism := true, hasProteinName := true,
            hasEpitopeId := false, hasBcellEpitopeId := false,
            hasAccessionId := true, hasEpitopeIdCap := true,
            hasSourceProtein := false, hasOriginalHeader := false,
            hasGroup := true,
            rows := d7.rows.map fun r =>
              { r with epitopeIdRaw := [], bcellEpitopeIdRaw := [],
                       sourceProtein := [], originalHeader := [] } }
        some (dExp, d7.rows.length)
      else none
  else none

/-- The cache-read path: repair missing required columns with `'unknown'`,
re-clean, re-assign ids (`clean_iedb_sequence` cannot fail here because the
repair guarantees `Sequence` and `Organism`; the fallback keeps totality). -/
def positiveFromCache (df : DataFrame) : DataFrame :=
  match clean_iedb_sequence (fillRequired df) with
  | .ok c => create_accession_id c
  | .error _ => create_accession_id (fillRequired df)

/-- Embeds `download_positive_data`.  Result: `((data?, count), file system,
pagination-request offsets)`; the overall `none` is fuel exhaustion of the
pagination loop (a run the finite model cannot represent). -/
def download_positive (fs : FileSystem) (net : Net) (limit fuel : Nat) :
    Option ((Option DataFrame × Nat) × FileSystem × List Nat) :=
  let live : Option ((Option DataFrame × Nat) × FileSystem × List Nat) :=
    if !net.probeOk then some ((none, 0), fs, [])
    else
      match paginate net limit fuel 0 [] with
      | none => none
      | some (chunks, log) =>
        if chunks.isEmpty then some ((none, 0), fs, log)
        else
          match processRaw (concatDF chunks) with
          | none => some ((none, 0), fs, log)
          | some (dfe, n) =>
            some ((some dfe, n), { fs with iedbCsv := some ⟨some dfe⟩ }, log)
  match fs.iedbCsv with
  | some file =>
    match file.parse with
    | some df =>
      let out := positiveFromCache df
      some ((some out, out.rows.length), fs, [])
    | none => live
  | none => live

/-! ### `generate_negative_data` (full stage, with cache and download) -/

/-- Embeds `generate_negative_data(target_count)`.  An existing readable CSV with
the required columns (`Source_Protein`, `Original_Header`) short-circuits;
an unreadable or incomplete file forces regeneration; a UniProt download
error returns an empty table without writing; otherwise the sampled table is
written to the CSV slot.  `none` = sampler fuel exhaustion. -/
def generate_negative (target : Nat) (fs : FileSystem) (net : Net)
    (rand : Nat → Nat) (fuel : Nat) : Option (DataFrame × FileSystem) :=
  let regen : Option (DataFrame × FileSystem) :=
    match net.uniprot with
    | none => some (emptyDF, fs)
    | some prots =>
      match samplerLoop prots target rand fuel (initSampler prots) with
      | none => none
      | some data =>
        let dfS := negDF data
        some (dfS, { fs with uniprotCsv := some ⟨some dfS⟩ })
  match fs.uniprotCsv with
  | some file =>
    match file.parse with
    | some df =>
      if df.hasSourceProtein && df.hasOriginalHeader then some (df, fs)
      else regen
    | none => regen
  | none => regen

/-! ### `sample_and_export_fasta` -/

inductive DsType where
  | iedb : DsType
  | uniprot : DsType
  deriving Repr, DecidableEq

/-- Embeds `df.sample(n=sampleSize, random_state=42, replace=False)` modelled by its
contract: a deterministic pure function of the table and the size returning
exactly `sampleSize` rows of the table (the fixed seed makes re-runs over an
unchanged input reproduce the identical subsample; the particular selection
is not observable to any property below and is modelled as the first `n`). -/
def sampleSeed42 (rows : List Row) (sampleSize : Nat) : List Row :=
  rows.take sampleSize

/-- The per-dataset column preparation before writing: for IEDB,
`Epitope_ID` is stringified and the literal `IEDB_EPI_` removed (`fillna`
after `astype(str)` is a no-op); for UniProt, `Original_Header` is
stringified. -/
def prepExportRows (t : DsType) (rows : List Row) : List Row :=
  match t with
  | .iedb => rows.map fun r => { r with epitopeIdOut := removeIedbTag r.epitopeIdOut }
  | .uniprot => rows

/-- FASTA header line: UniProt uses the original description verbatim; IEDB
composes `>infectious-<id> | <protein> | <organism> | <base-url><id>`
(a NaN organism prints as `"nan"` after `astype(str)`). -/
def fastaHeaderLine (t : DsType) (r : Row) : List Char :=
  match t with
  | .uniprot => '>' :: r.originalHeader
  | .iedb =>
    ">infectious-".toList ++ r.epitopeIdOut ++ " | ".toList ++ r.proteinName ++
      " | ".toList ++ (match r.organism with | some o => o | none => "nan".toList) ++
      " | ".toList ++ IEDB_EPITOPE_BASE_URL ++ r.epitopeIdOut

/-- Embeds `sample_and_export_fasta`.  Returns `(success, file slot afterwards,
under-target warning issued)`.  An existing file short-circuits with success
and no warning; otherwise a subsample is drawn when the table exceeds the
target, the whole table is used (with a warning when strictly smaller), and
two lines per record are written. -/
def sample_and_export_fasta (df : DataFrame) (slot : Option FastaFile)
    (sampleSize : Nat) (t : DsType) : Bool × Option FastaFile × Bool :=
  match slot with
  | some f => (true, some f, false)
  | none =>
    let sampled := if df.rows.length > sampleSize
      then sampleSeed42 df.rows sampleSize else df.rows
    let warned := df.rows.length < sampleSize
    let rows := prepExportRows t sampled
    let lines := (rows.map fun r => [fastaHeaderLine t r, r.sequence]).flatten
    (true, some ⟨lines⟩, warned)

/-! ### `run_data_pipeline` -/

/-- The orchestrator: fetch positives (abort keeping the file system if the
stage reports no data or an empty table), generate negatives sized to the
positive count (abort if empty), then export both FASTA files. -/
def run_data_pipeline (fs : FileSystem) (net : Net) (limit fuel : Nat)
    (rand : Nat → Nat) : Option FileSystem :=
  match download_positive fs net limit fuel with
  | none => none
  | some ((optDf, count), fs1, _) =>
    match optDf with
    | none => some fs1
    | some dfPos =>
      if dfPos.rows.isEmpty then some fs1
      else
        match generate_negative count fs1 net rand fuel with
        | none => none
        | some (dfNeg, fs2) =>
          if dfNeg.rows.isEmpty then some fs2
          else
            let e1 := sample_and_export_fasta dfPos fs2.iedbFasta TARGET_SAMPLE_SIZE .iedb
            let fs3 := { fs2 with iedbFasta := e1.2.1 }
            let e2 := sample_and_export_fasta dfNeg fs3.uniprotFasta TARGET_SAMPLE_SIZE .uniprot
            some { fs3 with uniprotFasta := e2.2.1 }

/-! ## Helper lemmas -/

theorem clean_ok_flags {d out : DataFrame}
    (h : clean_iedb_sequence d = .ok out) :
    out.hasSequence = d.hasSequence ∧ out.hasOrganism = d.hasOrganism ∧
      out.hasAccessionId = d.hasAccessionId ∧
      out.hasEpitopeId = d.hasEpitopeId ∧
      out.hasBcellEpitopeId = d.hasBcellEpitopeId ∧
      out.hasEpitopeIdCap = d.hasEpitopeIdCap := by
  unfold clean_iedb_sequence at h
  split at h
  · split at h
    · simp only [Except.ok.injEq] at h
      subst h
      exact ⟨rfl, rfl, rfl, rfl, rfl, rfl⟩
    · exact absurd h (by simp)
  · simp only [Except.ok.injEq] at h
    subst h
    exact ⟨rfl, rfl, rfl, rfl, rfl, rfl⟩

theorem fillRequired_hasAccessionId (df : DataFrame) :
    (fillRequired df).hasAccessionId = true := by
  obtain ⟨f1, f2, f3, f4, f5, f6, f7, f8, f9, f10, rs⟩ := df
  unfold fillRequired
  cases f6 <;> cases f1 <;> cases f10 <;> cases f2 <;> cases f3 <;> cases f7 <;> rfl

/-! ## C9 -/

/-- C9: an input table without a `Sequence` column passes through
`clean_iedb_sequence` completely unchanged — no rows dropped, no
normalization, no error — bypassing every cleaning filter. -/
theorem C9_clean_skips_without_sequence_column (df : DataFrame)
    (h : df.hasSequence = false) : clean_iedb_sequence df = .ok df := by
  unfold clean_iedb_sequence
  simp [h]

def dfNoSeqCol : DataFrame :=
  { emptyDF with
    hasOrganism := true,
    rows := [{ sequence := "short +X".toList, organism := none,
               proteinName := [], epitopeIdRaw := [], bcellEpitopeIdRaw := [],
               accession := [], epitopeIdOut := [], sourceProtein := [],
               originalHeader := [], group := [] }] }

/-- Witness for C9 at a table whose single row would otherwise be dropped by
every filter. -/
theorem C9_clean_skips_without_sequence_column_witness :
    dfNoSeqCol.hasSequence = false ∧
      clean_iedb_sequence dfNoSeqCol = .ok dfNoSeqCol :=
  ⟨rfl, C9_clean_skips_without_sequence_column dfNoSeqCol rfl⟩

/-! ## C10 -/

/-- C10: a table that already carries an `Accession_ID` column is returned
unchanged by `create_accession_id` (no validation, no `Epitope_ID`
synthesis); in particular, in the cache-read path — where the column repair
guarantees an `Accession_ID` column — the identifier policy is never
re-applied after cleaning. -/
theorem C10_create_accession_id_is_frame (df : DataFrame) :
    (df.hasAccessionId = true → create_accession_id df = df) ∧
      (∀ out, clean_iedb_sequence (fillRequired df) = .ok out →
        create_accession_id out = out) := by
  constructor
  · intro h
    unfold create_accession_id
    simp [h]
  · intro out h
    have hacc : out.hasAccessionId = true :=
      ((clean_ok_flags h).2.2.1).trans (fillRequired_hasAccessionId df)
    unfold create_accession_id
    simp [hacc]

def dfWithAcc : DataFrame :=
  { emptyDF with
    hasSequence := true, hasOrganism := true, hasAccessionId := true,
    rows := [{ sequence := "AAAAAAAAAA".toList,
               organism := some ("Homo sapiens".toList),
               proteinName := [], epitopeIdRaw := "999".toList,
               bcellEpitopeIdRaw := [], accession := "bogus-id".toList,
               epitopeIdOut := [], sourceProtein := [], originalHeader := [],
               group := [] }] }

/-- Witness for C10: a cached-style table with a (bogus, never re-validated)
`Accession_ID` column passes through untouched in both forms. -/
theorem C10_create_accession_id_is_frame_witness :
    create_accession_id dfWithAcc = dfWithAcc ∧
      create_accession_id (fillRequired dfWithAcc) = fillRequired dfWithAcc := by
  refine ⟨(C10_create_accession_id_is_frame dfWithAcc).1 rfl, ?_⟩
  have h := (C10_create_accession_id_is_frame dfWithAcc).2
  exact h (fillRequired dfWithAcc) rfl

/-! ## C6 -/

/-- Index of the first whitespace character that begins a whitespace run
whose first following non-whitespace character is `'+'` — the leftmost match
of a *nonempty*-whitespace-then-plus pattern. -/
def specWsPlusIdx : List Char → Option Nat
  | [] => none
  | c :: t =>
    if pyIsSpace c && (((c :: t).dropWhile pyIsSpace).head? == some '+') then
      some 0
    else (specWsPlusIdx t).map (· + 1)

/-- The spec's words for step 2 of the normalization: "truncate at the first
run of whitespace followed by a `+`" — built here solely for comparison with
the source-derived `subPlusTail`, reading the run as nonempty so that (as the
spec's claim asserts) a `'+'` not preceded by whitespace is not a truncation
point. -/
def specSubPlusTail (s : List Char) : List Char :=
  match specWsPlusIdx s with
  | some i => s.take i
  | none => s

/-- Normalization as the spec's words describe it. -/
def specCleanSequenceStr (s : List Char) : List Char :=
  subSpaceTail (specSubPlusTail (pyUpper s))

def plusNoSpace : List Char := "ABCDEFGHIJ+KLMNO".toList

def plusNoSpaceHead : List Char := "ABCDEFGHIJ".toList

/-- Counterexample for C6: on `"ABCDEFGHIJ+KLMNO"` — a `'+'` *not* preceded
by whitespace — the code truncates at the `'+'` (regex `\s*\+.*` matches a
zero-width whitespace run), while the claimed normalization leaves the string
intact.  So a `'+'` not preceded by whitespace *is* a truncation point. -/
theorem C6_counterexample :
    cleanSequenceStr plusNoSpace ≠ specCleanSequenceStr plusNoSpace ∧
      cleanSequenceStr plusNoSpace = plusNoSpaceHead ∧
      specCleanSequenceStr plusNoSpace = plusNoSpace := by
  refine ⟨?_, by decide, by decide⟩
  decide

theorem findIdx_plus_append (pre post : List Char) (h : '+' ∉ pre) :
    (pre ++ '+' :: post).findIdx (· == '+') = pre.length := by
  induction pre with
  | nil => simp [List.findIdx_cons]
  | cons c t ih =>
    have hc : (c == '+') = false := by
      simp only [beq_eq_false_iff_ne, ne_eq]
      intro he
      exact h (he ▸ List.mem_cons_self c t)
    have ht : '+' ∉ t := fun hm => h (List.mem_cons_of_mem c hm)
    simp [List.findIdx_cons, hc, ih ht]

/-- C6 amended: the normalization order is upper-case, then truncate at the
first `'+'` — absorbing the whitespace run immediately before it, which may
be empty, so *any* `'+'` is a truncation point — then truncate at the first
remaining whitespace character.  A `'+'`-free value is untouched by the
`'+'`-stripping step. -/
theorem C6_amended_normalization :
    (∀ s : List Char,
        cleanSequenceStr s = subSpaceTail (subPlusTail (pyUpper s))) ∧
      (∀ s : List Char, '+' ∉ s → subPlusTail s = s) ∧
      (∀ pre post : List Char, '+' ∉ pre →
        subPlusTail (pre ++ '+' :: post) = rstripSpace pre) := by
  refine ⟨fun s => rfl, ?_, ?_⟩
  · intro s h
    unfold subPlusTail
    rw [if_neg]
    simp only [List.any_eq_true, beq_iff_eq, not_exists]
    rintro x ⟨hx, rfl⟩
    exact h hx
  · intro pre post h
    unfold subPlusTail
    rw [if_pos, findIdx_plus_append pre post h]
    · congr 1
      induction pre with
      | nil => rfl
      | cons c t ih => simp [List.take_succ_cons, ih]
    · simp

def exPre : List Char := "ACDEFGHIKLMN ".toList

def exPost : List Char := "CITR(R1)".toList

def exBare : List Char := "ACDEFGHIKLMN".toList

/-- Witness for C6 amended at the spec's own example fragment and at a
plus-free string. -/
theorem C6_amended_normalization_witness :
    subPlusTail (exPre ++ '+' :: exPost) = rstripSpace exPre ∧
      subPlusTail exBare = exBare :=
  ⟨C6_amended_normalization.2.2 exPre exPost (by decide),
    C6_amended_normalization.2.1 exBare (by decide)⟩

/-! ## C8 -/

theorem flatten_pairs_length (l : List Row) (f g : Row → List Char) :
    ((l.map fun r => [f r, g r]).flatten).length = 2 * l.length := by
  induction l with
  | nil => rfl
  | cons r t ih =>
    simp only [List.map_cons, List.flatten_cons, List.length_append, ih,
      List.length_cons, List.length_nil]
    omega

theorem prepExportRows_length (t : DsType) (rows : List Row) :
    (prepExportRows t rows).length = rows.length := by
  cases t <;> simp [prepExportRows]

/-- C8: with no pre-existing output file the exporter writes exactly
`min (set size) target` records, two lines per record; re-running against the
file written by the first run short-circuits and leaves it unchanged (so two
runs produce identical files); and a set smaller than the target is exported
in full with an under-target warning. -/
theorem C8_export_sampling :
    (∀ (df : DataFrame) (n : Nat) (t : DsType) (f : FastaFile),
        (sample_and_export_fasta df none n t).2.1 = some f →
        f.lines.length = 2 * min df.rows.length n) ∧
      (∀ (df : DataFrame) (n : Nat) (t : DsType) (f : FastaFile),
        sample_and_export_fasta df (some f) n t = (true, some f, false)) ∧
      (∀ (df : DataFrame) (n : Nat) (t : DsType),
        sample_and_export_fasta df
            ((sample_and_export_fasta df none n t).2.1) n t =
          (true, (sample_and_export_fasta df none n t).2.1, false)) ∧
      (∀ (df : DataFrame) (n : Nat) (t : DsType), df.rows.length < n →
        (sample_and_export_fasta df none n t).2.2 = true ∧
          ∀ f, (sample_and_export_fasta df none n t).2.1 = some f →
            f.lines =
              ((prepExportRows t df.rows).map fun r =>
                [fastaHeaderLine t r, r.sequence]).flatten) := by
  have hskip : ∀ (df : DataFrame) (n : Nat) (t : DsType) (f : FastaFile),
      sample_and_export_fasta df (some f) n t = (true, some f, false) :=
    fun df n t f => rfl
  refine ⟨?_, hskip, ?_, ?_⟩
  · intro df n t f h
    unfold sample_and_export_fasta at h
    dsimp only at h
    by_cases hgt : df.rows.length > n
    · rw [if_pos hgt] at h
      simp only [Option.some.injEq] at h
      subst h
      show (((prepExportRows t (sampleSeed42 df.rows n)).map fun r =>
        [fastaHeaderLine t r, r.sequence]).flatten).length = _
      rw [flatten_pairs_length, prepExportRows_length]
      unfold sampleSeed42
      rw [List.length_take]
      omega
    · rw [if_neg hgt] at h
      simp only [Option.some.injEq] at h
      subst h
      show (((prepExportRows t df.rows).map fun r =>
        [fastaHeaderLine t r, r.sequence]).flatten).length = _
      rw [flatten_pairs_length, prepExportRows_length]
      omega
  · intro df n t
    have h1 : (sample_and_export_fasta df none n t).2.1 =
        some ⟨((prepExportRows t (if df.rows.length > n
          then sampleSeed42 df.rows n else df.rows)).map fun r =>
            [fastaHeaderLine t r, r.sequence]).flatten⟩ := rfl
    rw [h1, hskip]
  · intro df n t hlt
    have hngt : ¬ df.rows.length > n := by omega
    constructor
    · unfold sample_and_export_fasta
      dsimp only
      simp [hlt]
    · intro f h
      unfold sample_and_export_fasta at h
      dsimp only at h
      rw [if_neg hngt] at h
      simp only [Option.some.injEq] at h
      subst h
      rfl

def dfPosThree : DataFrame :=
  { emptyDF with
    hasSequence := true, hasOrganism := true, hasProteinName := true,
    hasAccessionId := true, hasEpitopeIdCap := true, hasGroup := true,
    rows :=
      [{ sequence := "AAAAAAAAAA".toList,
         organism := some ("Homo sapiens".toList),
         proteinName := "ProtA".toList, epitopeIdRaw := [],
         bcellEpitopeIdRaw := [], accession := "IEDB_EPI_000001".toList,
         epitopeIdOut := "000001".toList, sourceProtein := [],
         originalHeader := [], group := "IEDB_All".toList },
       { sequence := "CCCCCCCCCC".toList,
         organism := some ("Homo sapiens".toList),
         proteinName := "ProtA".toList, epitopeIdRaw := [],
         bcellEpitopeIdRaw := [], accession := "IEDB_EPI_000002".toList,
         epitopeIdOut := "000002".toList, sourceProtein := [],
         originalHeader := [], group := "IEDB_All".toList },
       { sequence := "DDDDDDDDDD".toList,
         organism := some ("Homo sapiens".toList),
         proteinName := "ProtA".toList, epitopeIdRaw := [],
         bcellEpitopeIdRaw := [], accession := "IEDB_EPI_000003".toList,
         epitopeIdOut := "000003".toList, sourceProtein := [],
         originalHeader := [], group := "IEDB_All".toList }] }

/-- Witness for C8 at the spec's example: exporting 3 positive records with
target sample size 10 writes all 3 (6 lines) and warns. -/
theorem C8_export_sampling_witness :
    (∀ f, (sample_and_export_fasta dfPosThree none 10 .iedb).2.1 = some f →
      f.lines.length = 2 * min dfPosThree.rows.length 10) ∧
      (sample_and_export_fasta dfPosThree none 10 .iedb).2.2 = true :=
  ⟨fun f hf => C8_export_sampling.1 dfPosThree 10 .iedb f hf,
    (C8_export_sampling.2.2.2 dfPosThree 10 .iedb (by decide)).1⟩

/-! ## C5 -/

/-- An existing negative CSV that parses but lacks the required
`Source_Protein`/`Original_Header` columns. -/
def dfBadNegCsv : DataFrame :=
  { emptyDF with
    hasSequence := true,
    rows := [{ sequence := "AAAAAAAAAA".toList, organism := none,
               proteinName := [], epitopeIdRaw := [], bcellEpitopeIdRaw := [],
               accession := [], epitopeIdOut := [], sourceProtein := [],
               originalHeader := [], group := [] }] }

def fsBadNeg : FileSystem := ⟨none, some ⟨some dfBadNegCsv⟩, none, none⟩

/-- A network whose UniProt download succeeds with zero proteins. -/
def netUniEmpty : Net := ⟨true, fun _ => PageResp.err, some []⟩

/-- Counterexample for C5: the negative CSV already exists on disk, yet the
generation stage rewrites it (the file parses but lacks the required columns,
so the stage forces regeneration and overwrites the artifact with different
bytes). -/
theorem C5_counterexample :
    (generate_negative 3 fsBadNeg netUniEmpty (fun _ => 0) 2).map
        (fun pr => pr.2.uniprotCsv == fsBadNeg.uniprotCsv) = some false := by
  decide

/-- C5 amended: a stage skips (and therefore never rewrites) its existing
output file only when that file is usable — the CSVs parse and the negative
CSV carries the required columns.  Under those conditions re-running the
fetch, generate, and export stages leaves the whole file system unchanged,
so a second run's outputs are byte-identical; an existing but unreadable or
schema-incomplete artifact is instead regenerated and rewritten. -/
theorem C5_amended_cache_short_circuit (net : Net) (limit fuel : Nat)
    (rand : Nat → Nat) (dfP dfN : DataFrame) (fP fN : FastaFile)
    (h3 : dfN.hasSourceProtein = true) (h4 : dfN.hasOriginalHeader = true) :
    run_data_pipeline ⟨some ⟨some dfP⟩, some ⟨some dfN⟩, some fP, some fN⟩ net
        limit fuel rand =
      some ⟨some ⟨some dfP⟩, some ⟨some dfN⟩, some fP, some fN⟩ := by
  set FS : FileSystem :=
    ⟨some ⟨some dfP⟩, some ⟨some dfN⟩, some fP, some fN⟩ with hFS
  have hdp : download_positive FS net limit fuel =
      some ((some (positiveFromCache dfP),
        (positiveFromCache dfP).rows.length), FS, []) := rfl
  have hneg : ∀ c, generate_negative c FS net rand fuel = some (dfN, FS) := by
    intro c
    unfold generate_negative
    simp [hFS, h3, h4]
  unfold run_data_pipeline
  rw [hdp]
  dsimp only
  cases hpe : (positiveFromCache dfP).rows.isEmpty with
  | true => simp [hpe]
  | false =>
    rw [if_neg (by simp [hpe]), hneg]
    dsimp only
    cases hne : dfN.rows.isEmpty with
    | true => simp [hne]
    | false =>
      rw [if_neg (by simp [hne])]
      rfl

def fsAllCached : FileSystem :=
  ⟨some ⟨some dfPosThree⟩,
    some ⟨some { emptyDF with
      hasSequence := true, hasGroup := true, hasOrganism := true,
      hasSourceProtein := true, hasOriginalHeader := true,
      rows := [{ sequence := "EEEEEEEEEE".toList,
                 organism := some ("UniProt_Random".toList),
                 proteinName := [], epitopeIdRaw := [],
                 bcellEpitopeIdRaw := [], accession := [], epitopeIdOut := [],
                 sourceProtein := "P12345".toList,
                 originalHeader := "sp|P12345|TEST_HUMAN desc".toList,
                 group := "UNIPROT_RANDOM".toList }] }⟩,
    some ⟨[">h".toList, "AAAAAAAAAA".toList]⟩,
    some ⟨[">h2".toList, "EEEEEEEEEE".toList]⟩⟩

/-- Witness for C5 amended: with all four artifacts present and usable, a
run changes nothing on disk. -/
theorem C5_amended_cache_short_circuit_witness :
    run_data_pipeline fsAllCached ⟨true, fun _ => PageResp.err, none⟩ 7 3
        (fun _ => 0) = some fsAllCached := by
  exact C5_amended_cache_short_circuit _ 7 3 _ _ _ _ _ rfl rfl

/-! ## C4 -/

def randZero : Nat → Nat := fun _ => 0

/-- One protein of exactly the minimum length: it admits a single fragment,
and once that fragment is in the seen set every further draw is rejected
without shrinking the pool. -/
def thrashProt : Protein := ⟨"P1".toList, "P1 desc".toList, "AAAAAAAAAA".toList⟩

def thrashSeqs : List Protein := [thrashProt]

def thrashPep : List Char := pyUpper thrashProt.pseq

def thrashSt (k : Nat) : SamplerState :=
  ⟨[mkNegRecord thrashProt thrashPep], [thrashPep], [0], k⟩

theorem thrash_spin :
    ∀ fuel k, samplerLoop thrashSeqs 2 randZero fuel (thrashSt k) = none := by
  intro fuel
  induction fuel with
  | zero => intro k; rfl
  | succ n ih =>
    intro k
    have hstep : samplerLoop thrashSeqs 2 randZero (n + 1) (thrashSt k) =
        samplerLoop thrashSeqs 2 randZero n (thrashSt (k + 3)) := rfl
    rw [hstep]
    exact ih (k + 3)

/-- Counterexample for C4: the sampling loop does *not* always terminate.
With a single minimum-length protein and a target of 2, no fuel bound
suffices: after the unique fragment is accepted, every iteration redraws it,
the uniqueness check rejects it, and nothing is ever removed from the pool
(pool-shrinking happens only for too-short proteins). -/
theorem C4_counterexample :
    ¬ ∃ fuel,
      (samplerLoop thrashSeqs 2 randZero fuel
          (initSampler thrashSeqs)).isSome = true := by
  rintro ⟨fuel, hf⟩
  have hnone : samplerLoop thrashSeqs 2 randZero fuel
      (initSampler thrashSeqs) = none := by
    cases fuel with
    | zero => rfl
    | succ n =>
      have hstep : samplerLoop thrashSeqs 2 randZero (n + 1)
          (initSampler thrashSeqs) =
            samplerLoop thrashSeqs 2 randZero n (thrashSt 3) := rfl
      rw [hstep]
      exact thrash_spin n 3
  rw [hnone] at hf
  simp at hf

/-- C4 amended: the loop terminates once the target count is reached or the
pool is empty, and pool-shrinking alone bounds the run only when every drawn
protein is shorter than `MIN_PEPTIDE_LENGTH` (each such draw permanently
removes one pool entry, so `|pool|` extra iterations suffice); a draw
rejected by the uniqueness/alphabet test leaves the pool untouched, so
termination is not guaranteed in general. -/
theorem C4_amended_termination :
    (∀ (seqs : List Protein) (target : Nat) (rand : Nat → Nat)
        (fuel : Nat) (st : SamplerState),
        target ≤ st.data.length → 1 ≤ fuel →
        samplerLoop seqs target rand fuel st = some st.data) ∧
      (∀ (seqs : List Protein) (target : Nat) (rand : Nat → Nat)
        (fuel : Nat) (st : SamplerState),
        st.pool = [] → 1 ≤ fuel →
        samplerLoop seqs target rand fuel st = some st.data) ∧
      (∀ (seqs : List Protein) (target : Nat) (rand : Nat → Nat),
        (∀ p ∈ seqs, p.pseq.length < MIN_PEPTIDE_LENGTH) →
        ∀ (fuel : Nat) (st : SamplerState), st.pool.length < fuel →
        ∃ out, samplerLoop seqs target rand fuel st = some out) := by
  refine ⟨?_, ?_, ?_⟩
  · intro seqs target rand fuel st hge hfuel
    obtain ⟨f, rfl⟩ : ∃ f, fuel = f + 1 :=
      ⟨fuel - 1, by omega⟩
    simp only [samplerLoop]
    rw [if_neg]
    simp only [Bool.and_eq_true, decide_eq_true_eq, not_and]
    intro hlt
    omega
  · intro seqs target rand fuel st hpool hfuel
    obtain ⟨f, rfl⟩ : ∃ f, fuel = f + 1 :=
      ⟨fuel - 1, by omega⟩
    simp only [samplerLoop]
    rw [if_neg]
    simp [hpool]
  · intro seqs target rand hshort fuel
    induction fuel with
    | zero =>
      intro st hlt
      omega
    | succ n ih =>
      intro st hlt
      by_cases hc :
          (decide (st.data.length < target) && !st.pool.isEmpty) = true
      · have hpne : st.pool ≠ [] := by
          simp only [Bool.and_eq_true, Bool.not_eq_true'] at hc
          exact fun he => by simp [he] at hc
        have hplen : 0 < st.pool.length := List.length_pos.mpr hpne
        have hmem : st.pool.getD (rand st.k % st.pool.length) 0 ∈ st.pool := by
          rw [List.getD_eq_getElem st.pool 0 (Nat.mod_lt _ hplen)]
          exact List.getElem_mem _
        set idx := st.pool.getD (rand st.k % st.pool.length) 0 with hidx
        have hshort' :
            (pyUpper (seqs.getD idx defaultProtein).pseq).length <
              MIN_PEPTIDE_LENGTH := by
          unfold pyUpper
          rw [List.length_map]
          by_cases hi : idx < seqs.length
          · exact hshort _ (by
              rw [List.getD_eq_getElem seqs defaultProtein hi]
              exact List.getElem_mem _)
          · rw [List.getD_eq_default seqs defaultProtein (by omega)]
            decide
        have herase : (st.pool.erase idx).length < n := by
          rw [List.length_erase_of_mem hmem]
          omega
        obtain ⟨out, hout⟩ := ih ⟨st.data, st.seen, st.pool.erase idx, st.k + 1⟩
          herase
        refine ⟨out, ?_⟩
        simp only [samplerLoop]
        rw [if_pos hc]
        rw [if_pos hshort']
        exact hout
      · refine ⟨st.data, ?_⟩
        simp only [samplerLoop]
        rw [if_neg hc]

def shortSeqs : List Protein := [⟨"Q1".toList, "Q1 d".toList, "AAA".toList⟩]

/-- Witness for C4 amended: an already-satisfied target returns immediately,
and a pool of too-short proteins drains within pool-size extra steps. -/
theorem C4_amended_termination_witness :
    samplerLoop [] 0 randZero 1 (initSampler []) = some [] ∧
      ∃ out, samplerLoop shortSeqs 7 randZero 2 (initSampler shortSeqs) =
        some out :=
  ⟨C4_amended_termination.1 [] 0 randZero 1 (initSampler []) (by decide)
      (by decide),
    C4_amended_termination.2.2 shortSeqs 7 randZero (by decide) 2
      (initSampler shortSeqs) (by decide)⟩

/-! ## Sampler invariants (shared by the claims about the negative set) -/

/-- Prop stating that `p` is a contiguous substring of `s`. -/
def SubstringOf (p s : List Char) : Prop := ∃ u v, u ++ p ++ v = s

theorem take_drop_length (s : List Char) (start size : Nat)
    (h : start + size ≤ s.length) :
    ((s.drop start).take size).length = size := by
  rw [List.length_take, List.length_drop]
  omega

theorem substringOf_take_drop (s : List Char) (start size : Nat)
    (_h : start + size ≤ s.length) :
    SubstringOf ((s.drop start).take size) s := by
  refine ⟨s.take start, s.drop (start + size), ?_⟩
  have h2 : (s.drop start).drop size = s.drop (start + size) := by
    rw [List.drop_drop]
  have h1 := List.take_append_drop size (s.drop start)
  have h3 := List.take_append_drop start s
  calc
    s.take start ++ (s.drop start).take size ++ s.drop (start + size)
        = s.take start ++
            ((s.drop start).take size ++ (s.drop start).drop size) := by
          rw [List.append_assoc, h2]
    _ = s.take start ++ s.drop start := by rw [h1]
    _ = s := h3

/-- Everything the acceptance branch of the sampler guarantees about an
emitted record: it originates from a protein of the pool, carries that
protein's parsed accession and stripped description, the constant group and
organism tags, and a fragment cut at a valid offset with a valid length,
free of `BJOUXZ`. -/
def GoodRec (seqs : List Protein) (r : NegRecord) : Prop :=
  ∃ p ∈ seqs,
    r.sourceProtein = pyProtId p ∧
    r.originalHeader = pyStrip p.pdesc ∧
    r.group = "UNIPROT_RANDOM".toList ∧
    r.organism = "UniProt_Random".toList ∧
    ∃ size start,
      MIN_PEPTIDE_LENGTH ≤ size ∧
      size ≤ min MAX_PEPTIDE_LENGTH (pyUpper p.pseq).length ∧
      start + size ≤ (pyUpper p.pseq).length ∧
      r.sequence = ((pyUpper p.pseq).drop start).take size ∧
      ∀ c ∈ r.sequence, isBJOUXZ c = false

theorem samplerLoop_invariant (seqs : List Protein) (target : Nat)
    (rand : Nat → Nat) :
    ∀ (fuel : Nat) (st : SamplerState) (out : List NegRecord),
      samplerLoop seqs target rand fuel st = some out →
      (∀ r ∈ st.data, GoodRec seqs r) →
      (∀ r ∈ st.data, r.sequence ∈ st.seen) →
      (st.data.map NegRecord.sequence).Nodup →
      (∀ r ∈ out, GoodRec seqs r) ∧ (out.map NegRecord.sequence).Nodup := by
  intro fuel
  induction fuel with
  | zero =>
    intro st out h
    simp [samplerLoop] at h
  | succ n ih =>
    intro st out h hg hseen hnd
    simp only [samplerLoop] at h
    by_cases hc : (decide (st.data.length < target) && !st.pool.isEmpty) = true
    · rw [if_pos hc] at h
      set idx := st.pool.getD (rand st.k % st.pool.length) 0 with hidx
      set p := seqs.getD idx defaultProtein with hp
      by_cases hshort : (pyUpper p.pseq).length < MIN_PEPTIDE_LENGTH
      · rw [if_pos hshort] at h
        exact ih _ _ h hg hseen hnd
      · rw [if_neg hshort] at h
        set size := MIN_PEPTIDE_LENGTH + rand (st.k + 1) %
          (min MAX_PEPTIDE_LENGTH (pyUpper p.pseq).length -
            MIN_PEPTIDE_LENGTH + 1) with hsize
        set start := rand (st.k + 2) % ((pyUpper p.pseq).length - size + 1)
          with hstart
        set pep := ((pyUpper p.pseq).drop start).take size with hpep
        by_cases hacc : (!st.seen.contains pep && !pep.any isBJOUXZ) = true
        · rw [if_pos hacc] at h
          have hMIN : MIN_PEPTIDE_LENGTH = 10 := rfl
          have hMAX : MAX_PEPTIDE_LENGTH = 30 := rfl
          obtain ⟨hns, hnb⟩ :
              pep ∉ st.seen ∧ ∀ c ∈ pep, isBJOUXZ c = false := by
            simp only [Bool.and_eq_true, Bool.not_eq_true'] at hacc
            refine ⟨?_, ?_⟩
            · have hc1 := hacc.1
              simp at hc1
              exact hc1
            · intro c hcm
              have hnbc := (List.any_eq_false).mp hacc.2 c hcm
              cases hb : isBJOUXZ c
              · rfl
              · exact absurd hb hnbc
          have hplen : MIN_PEPTIDE_LENGTH ≤ (pyUpper p.pseq).length := by
            omega
          have hkpos : 0 < min MAX_PEPTIDE_LENGTH (pyUpper p.pseq).length -
              MIN_PEPTIDE_LENGTH + 1 := by
            omega
          have hsize_lb : MIN_PEPTIDE_LENGTH ≤ size := Nat.le_add_right _ _
          have hsize_ub : size ≤ min MAX_PEPTIDE_LENGTH (pyUpper p.pseq).length := by
            have := Nat.mod_lt (rand (st.k + 1)) hkpos
            omega
          have hstart_ub : start + size ≤ (pyUpper p.pseq).length := by
            have h1 : 0 < (pyUpper p.pseq).length - size + 1 := by omega
            have := Nat.mod_lt (rand (st.k + 2)) h1
            have hsl : size ≤ (pyUpper p.pseq).length := by omega
            omega
          have hpmem : p ∈ seqs := by
            by_cases hi : idx < seqs.length
            · rw [hp, List.getD_eq_getElem seqs defaultProtein hi]
              exact List.getElem_mem _
            · exfalso
              have hlen0 : (pyUpper p.pseq).length = 0 := by
                rw [hp, List.getD_eq_default seqs defaultProtein (by omega)]
                rfl
              omega
          have hgood : GoodRec seqs (mkNegRecord p pep) :=
            ⟨p, hpmem, rfl, rfl, rfl, rfl, size, start, hsize_lb, hsize_ub,
              hstart_ub, rfl, hnb⟩
          apply ih _ _ h
          · intro r hr
            rcases List.mem_append.mp hr with hold | hnew
            · exact hg r hold
            · rw [List.mem_singleton.mp hnew]
              exact hgood
          · intro r hr
            rcases List.mem_append.mp hr with hold | hnew
            · exact List.mem_cons_of_mem _ (hseen r hold)
            · rw [List.mem_singleton.mp hnew]
              exact List.mem_cons_self _ _
          · rw [List.map_append]
            rw [List.nodup_append]
            refine ⟨hnd, List.nodup_singleton _, ?_⟩
            intro x hx hx'
            simp only [List.map_cons, List.map_nil, List.mem_singleton] at hx'
            obtain ⟨r, hr, hrs⟩ := List.mem_map.mp hx
            subst hx'
            have hrp : r.sequence = pep := hrs
            exact hns (hrp ▸ hseen r hr)
        · rw [if_neg hacc] at h
          exact ih _ _ h hg hseen hnd
    · rw [if_neg hc] at h
      simp only [Option.some.injEq] at h
      subst h
      exact ⟨hg, hnd⟩

/-! ## Cleaning-filter lemmas (shared) -/

theorem dedupBySeq_subset :
    ∀ (seen : List (List Char)) (l : List Row) (r : Row),
      r ∈ dedupBySeq seen l → r ∈ l := by
  intro seen l
  induction l generalizing seen with
  | nil =>
    intro r h
    simp [dedupBySeq] at h
  | cons a t ih =>
    intro r h
    unfold dedupBySeq at h
    by_cases hc : seen.contains a.sequence = true
    · rw [if_pos hc] at h
      exact List.mem_cons_of_mem _ (ih seen r h)
    · rw [if_neg hc] at h
      rcases List.mem_cons.mp h with rfl | hm
      · exact List.mem_cons_self _ _
      · exact List.mem_cons_of_mem _ (ih _ r hm)

theorem dedupBySeq_nodup :
    ∀ (seen : List (List Char)) (l : List Row),
      ((dedupBySeq seen l).map Row.sequence).Nodup ∧
        ∀ r ∈ dedupBySeq seen l, r.sequence ∉ seen := by
  intro seen l
  induction l generalizing seen with
  | nil => simp [dedupBySeq]
  | cons a t ih =>
    unfold dedupBySeq
    by_cases hc : seen.contains a.sequence = true
    · rw [if_pos hc]
      exact ih seen
    · rw [if_neg hc]
      obtain ⟨ihn, ihs⟩ := ih (a.sequence :: seen)
      have hanot : a.sequence ∉ seen := by
        intro hm
        exact hc (by simpa using hm)
      constructor
      · simp only [List.map_cons, List.nodup_cons]
        refine ⟨?_, ihn⟩
        intro hmem
        obtain ⟨r, hr, hreq⟩ := List.mem_map.mp hmem
        exact (ihs r hr) (hreq ▸ List.mem_cons_self _ _)
      · intro r hr
        rcases List.mem_cons.mp hr with rfl | hm
        · exact hanot
        · intro hmem
          exact (ihs r hm) (List.mem_cons_of_mem _ hmem)

/-! ## C1 -/

def parenProt : Protein :=
  ⟨"P2".toList, "P2 desc".toList, "AAAAA(AAAAAA".toList⟩

def netParen : Net := ⟨true, fun _ => PageResp.err, some [parenProt]⟩

def fsEmpty : FileSystem := ⟨none, none, none, none⟩

/-- Counterexample for C1: the sampler's acceptance test checks only
`BJOUXZ`, not `+`, `(`, `)`.  From a background protein whose sequence
contains `'('`, `generate_negative_data` emits a canonical negative record
whose `Sequence` contains `'('` — violating the claimed alphabet invariant
for canonical sets. -/
theorem C1_counterexample :
    (generate_negative 1 fsEmpty netParen randZero 2).map
        (fun pr => pr.1.rows.any fun r => r.sequence.contains '(') =
      some true := by
  decide

/-- C1 amended: every record of the canonical positive set (the output of
`clean_iedb_sequence` on a table with a `Sequence` column) has sequence
length in `[MIN_PEPTIDE_LENGTH, MAX_PEPTIDE_LENGTH]`, none of
`B,J,O,U,X,Z,+,(,)`, and pairwise-distinct sequence values; every record of
the canonical negative set (a completed sampler run) has sequence length in
the same bounds and pairwise-distinct sequence values, but its acceptance
test only excludes `B,J,O,U,X,Z` — the characters `+`, `(`, `)` are not
filtered there. -/
theorem C1_amended_canonical_set_invariants :
    (∀ (df out : DataFrame), df.hasSequence = true →
        clean_iedb_sequence df = .ok out →
        (∀ r ∈ out.rows,
          MIN_PEPTIDE_LENGTH ≤ r.sequence.length ∧
            r.sequence.length ≤ MAX_PEPTIDE_LENGTH ∧
            ∀ c ∈ r.sequence, isForbiddenChar c = false) ∧
          (out.rows.map Row.sequence).Nodup) ∧
      (∀ (seqs : List Protein) (target : Nat) (rand : Nat → Nat)
          (fuel : Nat) (out : List NegRecord),
        samplerLoop seqs target rand fuel (initSampler seqs) = some out →
        (∀ r ∈ out,
          MIN_PEPTIDE_LENGTH ≤ r.sequence.length ∧
            r.sequence.length ≤ MAX_PEPTIDE_LENGTH ∧
            ∀ c ∈ r.sequence, isBJOUXZ c = false) ∧
          (out.map NegRecord.sequence).Nodup) := by
  constructor
  · intro df out hseq h
    unfold clean_iedb_sequence at h
    rw [if_pos hseq] at h
    by_cases horg : df.hasOrganism = true
    · rw [if_pos horg] at h
      simp only [Except.ok.injEq] at h
      subst h
      constructor
      · intro r hr
        have hr4 := dedupBySeq_subset _ _ _ hr
        have hmem3 := List.mem_filter.mp hr4
        have hforb := hmem3.2
        have hmem2 := List.mem_filter.mp hmem3.1
        have hlen := of_decide_eq_true hmem2.2
        refine ⟨hlen.1, hlen.2, ?_⟩
        intro c hcm
        simp only [Bool.not_eq_true'] at hforb
        have := (List.any_eq_false).mp hforb c hcm
        cases hb : isForbiddenChar c
        · rfl
        · exact absurd hb this
      · exact (dedupBySeq_nodup [] _).1
    · rw [if_neg horg] at h
      exact absurd h (by simp)
  · intro seqs target rand fuel out h
    have hinv := samplerLoop_invariant seqs target rand fuel
      (initSampler seqs) out h (by intro r hr; simp [initSampler] at hr)
      (by intro r hr; simp [initSampler] at hr) (by simp [initSampler])
    refine ⟨?_, hinv.2⟩
    intro r hr
    obtain ⟨p, _, _, _, _, _, size, start, hlb, hub, hse, hseq, hnb⟩ :=
      hinv.1 r hr
    have hlen : r.sequence.length = size := by
      rw [hseq]
      exact take_drop_length _ _ _ hse
    have hMIN : MIN_PEPTIDE_LENGTH = 10 := rfl
    have hMAX : MAX_PEPTIDE_LENGTH = 30 := rfl
    exact ⟨by omega, by omega, hnb⟩

/-- Witness for C1 amended: both halves applied to concrete canonical sets
(one cached positive row; one sampled negative record). -/
theorem C1_amended_canonical_set_invariants_witness :
    (dfWithAcc.rows.map Row.sequence).Nodup ∧
      ([mkNegRecord thrashProt thrashPep].map NegRecord.sequence).Nodup :=
  ⟨(C1_amended_canonical_set_invariants.1 dfWithAcc dfWithAcc rfl rfl).2,
    (C1_amended_canonical_set_invariants.2 thrashSeqs 1 randZero 2
        [mkNegRecord thrashProt thrashPep] rfl).2⟩

/-! ## C2 -/

/-- C2: every record of a completed sampler run is cut from a pool protein
as a contiguous substring of the upper-cased protein sequence, with a
fragment length in `[MIN_PEPTIDE_LENGTH, min(MAX_PEPTIDE_LENGTH, protein
length)]` and a start offset with `start + length ≤ protein length`;
consequently its length is exactly the drawn size, at most the source
protein's length, and within `[10, 30]`. -/
theorem C2_negative_fragment_bounds :
    ∀ (seqs : List Protein) (target : Nat) (rand : Nat → Nat)
      (fuel : Nat) (out : List NegRecord),
      samplerLoop seqs target rand fuel (initSampler seqs) = some out →
      ∀ r ∈ out, ∃ p ∈ seqs,
        r.sourceProtein = pyProtId p ∧
        SubstringOf r.sequence (pyUpper p.pseq) ∧
        ∃ size start,
          MIN_PEPTIDE_LENGTH ≤ size ∧
          size ≤ min MAX_PEPTIDE_LENGTH (pyUpper p.pseq).length ∧
          start + size ≤ (pyUpper p.pseq).length ∧
          r.sequence = ((pyUpper p.pseq).drop start).take size ∧
          r.sequence.length = size ∧
          r.sequence.length ≤ p.pseq.length ∧
          MIN_PEPTIDE_LENGTH ≤ r.sequence.length ∧
          r.sequence.length ≤ MAX_PEPTIDE_LENGTH := by
  intro seqs target rand fuel out h r hr
  have hinv := samplerLoop_invariant seqs target rand fuel
    (initSampler seqs) out h (by intro x hx; simp [initSampler] at hx)
    (by intro x hx; simp [initSampler] at hx) (by simp [initSampler])
  obtain ⟨p, hpm, hsrc, _, _, _, size, start, hlb, hub, hse, hseq, _⟩ :=
    hinv.1 r hr
  have hlen : r.sequence.length = size := by
    rw [hseq]
    exact take_drop_length _ _ _ hse
  have hplen : (pyUpper p.pseq).length = p.pseq.length := by
    unfold pyUpper
    rw [List.length_map]
  have hMIN : MIN_PEPTIDE_LENGTH = 10 := rfl
  have hMAX : MAX_PEPTIDE_LENGTH = 30 := rfl
  refine ⟨p, hpm, hsrc, ?_, size, start, hlb, hub, hse, hseq, hlen,
    by omega, by omega, by omega⟩
  rw [hseq]
  exact substringOf_take_drop _ _ _ hse

/-- Witness for C2 at a concrete completed run. -/
theorem C2_negative_fragment_bounds_witness :
    ∃ p ∈ thrashSeqs,
      (mkNegRecord thrashProt thrashPep).sourceProtein = pyProtId p ∧
      SubstringOf (mkNegRecord thrashProt thrashPep).sequence
        (pyUpper p.pseq) ∧
      ∃ size start,
        MIN_PEPTIDE_LENGTH ≤ size ∧
        size ≤ min MAX_PEPTIDE_LENGTH (pyUpper p.pseq).length ∧
        start + size ≤ (pyUpper p.pseq).length ∧
        (mkNegRecord thrashProt thrashPep).sequence =
          ((pyUpper p.pseq).drop start).take size ∧
        (mkNegRecord thrashProt thrashPep).sequence.length = size ∧
        (mkNegRecord thrashProt thrashPep).sequence.length ≤ p.pseq.length ∧
        MIN_PEPTIDE_LENGTH ≤ (mkNegRecord thrashProt thrashPep).sequence.length ∧
        (mkNegRecord thrashProt thrashPep).sequence.length ≤
          MAX_PEPTIDE_LENGTH :=
  C2_negative_fragment_bounds thrashSeqs 1 randZero 2
    [mkNegRecord thrashProt thrashPep] rfl (mkNegRecord thrashProt thrashPep)
    (List.mem_singleton.mpr rfl)

/-! ## C3 -/

theorem digitToChar_val (d : Nat) (h : d < 10) :
    (digitToChar d).toNat - 48 = d := by
  interval_cases d <;> rfl

theorem digitToChar_isDigit (d : Nat) (h : d < 10) :
    (digitToChar d).isDigit = true := by
  interval_cases d <;> rfl

/-- Horner evaluation of a decimal digit string, the left inverse used to
show `pad6` is injective. -/
def decValue (s : List Char) : Nat :=
  s.foldl (fun a c => a * 10 + (c.toNat - 48)) 0

theorem foldl_decimal (L : List Nat) (hL : ∀ d ∈ L, d < 10) :
    ∀ a : Nat,
      ((L.map digitToChar).reverse).foldl
          (fun x c => x * 10 + (c.toNat - 48)) a =
        a * 10 ^ L.length + Nat.ofDigits 10 L := by
  induction L with
  | nil =>
    intro a
    simp
  | cons d t ih =>
    intro a
    rw [List.map_cons, List.reverse_cons, List.foldl_append]
    rw [ih (fun x hx => hL x (List.mem_cons_of_mem _ hx)) a]
    simp only [List.foldl_cons, List.foldl_nil]
    rw [digitToChar_val d (hL d (List.mem_cons_self _ _))]
    rw [Nat.ofDigits_cons]
    simp only [List.length_cons, pow_succ]
    ring

theorem decValue_pad6 (n : Nat) : decValue (pad6 n) = n := by
  unfold decValue pad6
  rw [List.foldl_append]
  have hz : ∀ k : Nat,
      (List.replicate k '0').foldl (fun a c => a * 10 + (c.toNat - 48)) 0
        = 0 := by
    intro k
    induction k with
    | zero => rfl
    | succ m ih =>
      rw [List.replicate_succ, List.foldl_cons]
      simpa using ih
  rw [hz]
  unfold decimalChars
  rw [foldl_decimal (Nat.digits 10 n)
    (fun d hd => Nat.digits_lt_base (by norm_num) hd) 0]
  simp [Nat.ofDigits_digits]

theorem pad6_injective : Function.Injective pad6 := by
  intro a b h
  have ha := decValue_pad6 a
  rw [h, decValue_pad6 b] at ha
  omega

theorem pyIsNumeric_pad6 (n : Nat) : pyIsNumeric (pad6 n) = true := by
  unfold pyIsNumeric pad6
  rw [Bool.and_eq_true]
  constructor
  · rw [Bool.not_eq_true']
    cases hrep : 6 - (decimalChars n).length with
    | zero =>
      have hlen : (decimalChars n).length ≥ 6 := by omega
      cases hdc : decimalChars n with
      | nil => rw [hdc] at hlen; simp at hlen
      | cons c t => rfl
    | succ m => rfl
  · rw [List.all_eq_true]
    intro c hc
    rcases List.mem_append.mp hc with hrep | hdec
    · rw [List.eq_of_mem_replicate hrep]
      rfl
    · unfold decimalChars at hdec
      rw [List.mem_reverse] at hdec
      obtain ⟨d, hd, rfl⟩ := List.mem_map.mp hdec
      exact digitToChar_isDigit d (Nat.digits_lt_base (by norm_num) hd)

theorem isIedbAccession_tag (id : List Char) :
    isIedbAccession (iedbTag ++ id) = pyIsNumeric id := rfl

def rowDup42 : Row :=
  ⟨"AAAAAAAAAA".toList, some ("Homo sapiens".toList), "ProtA".toList,
    "42".toList, [], [], [], [], [], []⟩

def dfDup42 : DataFrame :=
  ⟨true, true, true, true, false, false, false, false, false, false,
    [rowDup42, { rowDup42 with sequence := "CCCCCCCCCC".toList }]⟩

def netDup42 : Net :=
  ⟨true, fun o => if o == 0 then PageResp.table dfDup42 else PageResp.err,
    none⟩

/-- Counterexample for C3: a live fetch whose two records carry the same
upstream epitope id `42` but different sequences — both survive cleaning
(deduplication is by sequence only) and both receive `Accession_ID =
"IEDB_EPI_42"`, so the positive set's accession ids are not pairwise
distinct. -/
theorem C3_counterexample :
    (download_positive fsEmpty netDup42 5 3).map
        (fun res =>
          match res.1.1 with
          | some d => d.rows.map fun r => r.accession
          | none => []) =
      some ["IEDB_EPI_42".toList, "IEDB_EPI_42".toList] ∧
      ¬ (["IEDB_EPI_42".toList,
          "IEDB_EPI_42".toList] : List (List Char)).Nodup := by
  exact ⟨by decide, by decide⟩

/-- C3 amended: on a table without an `Accession_ID` column,
`create_accession_id` gives every row an accession matching
`IEDB_EPI_<digits>`; the accessions are pairwise distinct when no upstream
epitope-id column exists (sequential zero-padded counter), and when one
exists they are distinct exactly when the surviving cleaned upstream ids are
distinct — duplicated upstream ids yield duplicated accessions. -/
theorem C3_amended_accession_policy (df : DataFrame)
    (hacc : df.hasAccessionId = false) :
    (∀ r ∈ (create_accession_id df).rows,
        isIedbAccession r.accession = true) ∧
      ((df.hasEpitopeId || df.hasBcellEpitopeId) = false →
        ((create_accession_id df).rows.map Row.accession).Nodup) ∧
      ((df.hasEpitopeId || df.hasBcellEpitopeId) = true →
        ((create_accession_id df).rows.map Row.epitopeIdOut).Nodup →
        ((create_accession_id df).rows.map Row.accession).Nodup) := by
  have hne : ¬ df.hasAccessionId = true := by simp [hacc]
  by_cases hcand : (df.hasEpitopeId || df.hasBcellEpitopeId) = true
  · have hrows : (create_accession_id df).rows =
        ((df.rows.map fun r =>
            { r with epitopeIdOut := pyStrip (stripDot0
                (if df.hasEpitopeId then r.epitopeIdRaw
                 else r.bcellEpitopeIdRaw)) }).filter fun r =>
          pyIsNumeric r.epitopeIdOut).map fun r =>
            { r with accession := iedbTag ++ r.epitopeIdOut } := by
      unfold create_accession_id
      rw [if_neg hne, if_pos hcand]
    refine ⟨?_, ?_, ?_⟩
    · intro r hr
      rw [hrows] at hr
      obtain ⟨x, hx, rfl⟩ := List.mem_map.mp hr
      have hnum := (List.mem_filter.mp hx).2
      show isIedbAccession (iedbTag ++ x.epitopeIdOut) = true
      rw [isIedbAccession_tag]
      exact hnum
    · intro hno
      rw [hcand] at hno
      exact absurd hno (by simp)
    · intro _ hnodup
      rw [hrows] at hnodup ⊢
      rw [List.map_map] at hnodup ⊢
      have hma : (Row.accession ∘ fun r =>
          { r with accession := iedbTag ++ r.epitopeIdOut }) =
            (fun r : Row => iedbTag ++ r.epitopeIdOut) := rfl
      have hme : (Row.epitopeIdOut ∘ fun r : Row =>
          { r with accession := iedbTag ++ r.epitopeIdOut }) =
            Row.epitopeIdOut := rfl
      rw [hma]
      rw [hme] at hnodup
      have : (fun r : Row => iedbTag ++ r.epitopeIdOut) =
          ((iedbTag ++ ·) ∘ Row.epitopeIdOut) := rfl
      rw [this, ← List.map_map]
      exact hnodup.map fun a b hab => List.append_cancel_left hab
  · have hrows : (create_accession_id df).rows =
        df.rows.enum.map fun p =>
          { p.2 with
            accession := iedbTag ++ pad6 (p.1 + 1),
            epitopeIdOut := removeIedbTag (iedbTag ++ pad6 (p.1 + 1)) } := by
      unfold create_accession_id
      rw [if_neg hne, if_neg hcand]
    refine ⟨?_, ?_, ?_⟩
    · intro r hr
      rw [hrows] at hr
      obtain ⟨p, _, rfl⟩ := List.mem_map.mp hr
      show isIedbAccession (iedbTag ++ pad6 (p.1 + 1)) = true
      rw [isIedbAccession_tag]
      exact pyIsNumeric_pad6 _
    · intro _
      rw [hrows, List.map_map]
      have hcomp : (Row.accession ∘ fun p : Nat × Row =>
          { p.2 with
            accession := iedbTag ++ pad6 (p.1 + 1),
            epitopeIdOut := removeIedbTag (iedbTag ++ pad6 (p.1 + 1)) }) =
            ((fun i => iedbTag ++ pad6 (i + 1)) ∘ Prod.fst) := rfl
      rw [hcomp, ← List.map_map, List.enum_map_fst]
      refine List.Nodup.map ?_ (List.nodup_range _)
      intro a b hab
      have := pad6_injective (List.append_cancel_left hab)
      omega
    · intro hcontra
      rw [hcontra] at hcand
      exact absurd rfl hcand

def dfSeqOnly : DataFrame :=
  ⟨true, true, true, false, false, false, false, false, false, false,
    [rowDup42, { rowDup42 with sequence := "CCCCCCCCCC".toList }]⟩

/-- Witness for C3 amended: the sequential branch on a two-row table yields
distinct well-formed accessions, and the upstream-id branch yields
well-formed accessions. -/
theorem C3_amended_accession_policy_witness :
    ((create_accession_id dfSeqOnly).rows.map Row.accession).Nodup ∧
      ∀ r ∈ (create_accession_id dfDup42).rows,
        isIedbAccession r.accession = true :=
  ⟨(C3_amended_accession_policy dfSeqOnly rfl).2.1 rfl,
    (C3_amended_accession_policy dfDup42 rfl).1⟩

/-! ## C7 -/

/-- The pagination loop accumulates exactly the pages that precede the first
request error: if the pages at offsets `0·L, …, (k-1)·L` past `offset` are
full (length `= limit`, nonempty) and the request at `offset + k·L` errors,
the loop returns those `k` chunks and logs the `k+1` issued offsets. -/
theorem paginate_stops_at_error (net : Net) (limit : Nat) :
    ∀ (k : Nat) (dfs : Nat → DataFrame) (offset fuel : Nat)
      (acc : List DataFrame), k < fuel →
      (∀ j < k, net.page (offset + j * limit) = PageResp.table (dfs j) ∧
        (dfs j).rows.length = limit ∧ (dfs j).rows ≠ []) →
      net.page (offset + k * limit) = PageResp.err →
      paginate net limit fuel offset acc =
        some (acc ++ (List.range k).map dfs,
          (List.range (k + 1)).map fun j => offset + j * limit) := by
  intro k
  induction k with
  | zero =>
    intro dfs offset fuel acc hk _ herr
    obtain ⟨f, rfl⟩ : ∃ f, fuel = f + 1 := ⟨fuel - 1, by omega⟩
    rw [show offset + 0 * limit = offset by ring] at herr
    simp only [paginate, herr]
    have h1 : List.range (0 + 1) = [0] := rfl
    rw [h1]
    simp
  | succ m ih =>
    intro dfs offset fuel acc hk hfull herr
    obtain ⟨f, rfl⟩ : ∃ f, fuel = f + 1 := ⟨fuel - 1, by omega⟩
    obtain ⟨hp0, hl0, hne0⟩ := hfull 0 (Nat.succ_pos m)
    rw [show offset + 0 * limit = offset by ring] at hp0
    have hstep := ih (fun j => dfs (j + 1)) (offset + limit) f
      (acc ++ [dfs 0]) (by omega)
      (by
        intro j hj
        have := hfull (j + 1) (by omega)
        rwa [show offset + (j + 1) * limit = offset + limit + j * limit
          by ring] at this)
      (by
        rwa [show offset + (m + 1) * limit = offset + limit + m * limit
          by ring] at herr)
    simp only [paginate, hp0]
    rw [if_neg (by simp [hne0]), if_neg (by omega), hstep]
    have hfst : acc ++ (List.range (m + 1)).map dfs =
        (acc ++ [dfs 0]) ++ (List.range m).map fun j => dfs (j + 1) := by
      rw [List.range_succ_eq_map, List.map_cons, List.map_map,
        List.append_assoc]
      rfl
    have hsnd : (List.range (m + 1 + 1)).map (fun j => offset + j * limit) =
        offset ::
          (List.range (m + 1)).map fun j => offset + limit + j * limit := by
      rw [List.range_succ_eq_map (m + 1), List.map_cons, List.map_map]
      congr 1
      · ring
      · exact List.map_congr_left fun x _ => by
          simp only [Function.comp_apply, Nat.succ_eq_add_one]
          ring
    rw [hfst, hsnd]
    rfl

/-- C7: the fetch fails with zero records and issues no pagination request
when the probe fails; the pagination loop aborts at the first mid-pagination
request error having accumulated exactly the earlier pages; when the very
first page request errors (zero pages accumulated) the fetch fails with zero
records; and when at least one page was accumulated the fetch proceeds to
process the concatenation of the accumulated chunks. -/
theorem C7_fetch_error_handling :
    (∀ (fs : FileSystem) (net : Net) (limit fuel : Nat),
        fs.iedbCsv = none → net.probeOk = false →
        download_positive fs net limit fuel = some ((none, 0), fs, [])) ∧
      (∀ (net : Net) (limit k : Nat) (dfs : Nat → DataFrame)
          (offset fuel : Nat) (acc : List DataFrame), k < fuel →
        (∀ j < k, net.page (offset + j * limit) = PageResp.table (dfs j) ∧
          (dfs j).rows.length = limit ∧ (dfs j).rows ≠ []) →
        net.page (offset + k * limit) = PageResp.err →
        paginate net limit fuel offset acc =
          some (acc ++ (List.range k).map dfs,
            (List.range (k + 1)).map fun j => offset + j * limit)) ∧
      (∀ (fs : FileSystem) (net : Net) (limit fuel : Nat),
        fs.iedbCsv = none → net.probeOk = true → 1 ≤ fuel →
        net.page 0 = PageResp.err →
        download_positive fs net limit fuel = some ((none, 0), fs, [0])) ∧
      (∀ (fs : FileSystem) (net : Net) (limit fuel : Nat)
          (chunks : List DataFrame) (log : List Nat),
        fs.iedbCsv = none → net.probeOk = true →
        paginate net limit fuel 0 [] = some (chunks, log) → chunks ≠ [] →
        download_positive fs net limit fuel =
          some ((match processRaw (concatDF chunks) with
                 | none => (none, 0)
                 | some (d, n) => (some d, n)),
            (match processRaw (concatDF chunks) with
             | none => fs
             | some (d, _) => { fs with iedbCsv := some ⟨some d⟩ }), log)) := by
  refine ⟨?_, fun net limit => paginate_stops_at_error net limit, ?_, ?_⟩
  · intro fs net limit fuel hcsv hprobe
    unfold download_positive
    rw [hcsv]
    simp [hprobe]
  · intro fs net limit fuel hcsv hprobe hfuel hpage
    obtain ⟨f, rfl⟩ : ∃ f, fuel = f + 1 := ⟨fuel - 1, by omega⟩
    unfold download_positive
    rw [hcsv]
    simp [hprobe, paginate, hpage]
  · intro fs net limit fuel chunks log hcsv hprobe hpag hchunks
    unfold download_positive
    rw [hcsv]
    simp only [hprobe, Bool.not_true, Bool.false_eq_true, if_false, hpag]
    rw [if_neg (by simp [hchunks])]
    cases hpr : processRaw (concatDF chunks) with
    | none => rfl
    | some pr => rfl

def netProbeDead : Net := ⟨false, fun _ => PageResp.err, none⟩

def netFirstPageErr : Net := ⟨true, fun _ => PageResp.err, none⟩

/-- Witness for C7: a failed probe reports zero records without issuing any
pagination request, and a first-page error reports zero records after the
single logged request. -/
theorem C7_fetch_error_handling_witness :
    download_positive fsEmpty netProbeDead 5 3 =
        some ((none, 0), fsEmpty, []) ∧
      download_positive fsEmpty netFirstPageErr 5 3 =
        some ((none, 0), fsEmpty, [0]) :=
  ⟨C7_fetch_error_handling.1 fsEmpty netProbeDead 5 3 rfl rfl,
    C7_fetch_error_handling.2.2.1 fsEmpty netFirstPageErr 5 3 rfl rfl
      (by omega) rfl⟩

end DataPrep
